import Mathlib

/-!
Pausable log backend adapter (`src/logging.cpp`)

A shallow embedding of `PausableBackendAdapter`: the sink adapter that either
forwards a log record to the wrapped backend or, while paused, keeps it in a
buffer until `resume` drains the buffer into the backend.

A record is the pair `(recordView, message)` that the C++ code packs with
`std::make_tuple` and unpacks with `std::get`.  The type of record views is a
parameter `RV`; the adapter never looks inside one.

Every method body runs under `lock_guard<std::mutex>`, so a method call is one
atomic step; the embedding is the sequential semantics of those steps.  The
adapter holds the backend through a shared pointer; the embedding follows the
backend as written to through this adapter, which is how `initLogging` wires it.

The file also embeds the member table of `LogLevel` and the two stream operators
that render and parse level names.
-/

set_option autoImplicit false

/-! ## The wrapped backend -/

/-- The sink the adapter writes to (`boost::log::sinks::text_ostream_backend`, an
external library class), seen from the adapter: `received` is the list of records
it has accepted, oldest first, and `calls` counts every call of its `consume`,
whether the call returned or threw. -/
structure TextOstreamBackend (RV : Type) where
  received : List (RV × String)
  calls : Nat
  deriving DecidableEq, Repr

/-- The failure behaviour of the backend: `fault n r = some e` says that call number
`n` (counted from 0) of the backend's `consume`, made with record `r`, throws `e`;
`none` says the call writes the record and returns. -/
abbrev Fault (RV ε : Type) : Type := Nat → RV × String → Option ε

/-- A backend whose writes never fail. -/
def NeverFails {RV ε : Type} (fault : Fault RV ε) : Prop :=
  ∀ (n : Nat) (r : RV × String), fault n r = none

/-- The policy of a backend that accepts every write. -/
def noFault {RV ε : Type} : Fault RV ε := fun _ _ => none

/-- One call `backend->consume(recordView, message)`.  The second component is the
exception that left the call, `none` when the call returned. -/
def TextOstreamBackend.consume {RV ε : Type} (fault : Fault RV ε)
    (b : TextOstreamBackend RV) (recordView : RV) (message : String) :
    TextOstreamBackend RV × Option ε :=
  match fault b.calls (recordView, message) with
  | some e => ({ b with calls := b.calls + 1 }, some e)
  | none =>
    ({ received := b.received ++ [(recordView, message)], calls := b.calls + 1 }, none)

/-! ## The adapter -/

/-- The data members of `PausableBackendAdapter` that the method bodies of
`logging.cpp` read and write.  The mutex carries no data and is left out. -/
structure PausableBackendAdapter (RV : Type) where
  backend : TextOstreamBackend RV
  buffer : List (RV × String)
  isPaused : Bool
  deriving DecidableEq, Repr

namespace PausableBackendAdapter

variable {RV ε : Type}

/-- Modelled from the spec: the class declaration (`logging.h`), which holds the
initial values of the data members, is not among the sources.  The constructor
`PausableBackendAdapter::PausableBackendAdapter(backend)` of `logging.cpp` only
stores `backend`; the spec gives the other two members their initial values:
`isPaused` has "initial value `false` (not paused)" and `buffer` is "empty at
construction". -/
def create (backend : TextOstreamBackend RV) : PausableBackendAdapter RV :=
  { backend := backend, buffer := [], isPaused := false }

/-- Method `PausableBackendAdapter::consume(recordView, message)`:
`if (isPaused) buffer.push_back(make_tuple(recordView, message));
 else backend->consume(recordView, message);`.
The result is the state after the call and the exception that left it, if any. -/
def consume (fault : Fault RV ε) (a : PausableBackendAdapter RV)
    (recordView : RV) (message : String) : PausableBackendAdapter RV × Option ε :=
  if a.isPaused then
    ({ a with buffer := a.buffer ++ [(recordView, message)] }, none)
  else
    match a.backend.consume fault recordView message with
    | (b, thrown) => ({ a with backend := b }, thrown)

/-- Method `PausableBackendAdapter::pause()`: `isPaused = true;`. -/
def pause (a : PausableBackendAdapter RV) : PausableBackendAdapter RV :=
  { a with isPaused := true }

/-- The loop of `resume`:
`for (const auto& tuple : buffer) backend->consume(get<record_view>(tuple), get<string>(tuple));`.
The loop walks the buffer from its first element and is left at the first call
that throws. -/
def drain (fault : Fault RV ε) (b : TextOstreamBackend RV) :
    List (RV × String) → TextOstreamBackend RV × Option ε
  | [] => (b, none)
  | tuple :: rest =>
    match b.consume fault tuple.1 tuple.2 with
    | (b1, some e) => (b1, some e)
    | (b1, none) => drain fault b1 rest

/-- Method `PausableBackendAdapter::resume()`:
`isPaused = false; for (...) backend->consume(...); buffer.clear();`.
When a backend call throws, the statements after it do not run, so the buffer is
not cleared. -/
def resume (fault : Fault RV ε) (a : PausableBackendAdapter RV) :
    PausableBackendAdapter RV × Option ε :=
  let a1 : PausableBackendAdapter RV := { a with isPaused := false }
  match drain fault a1.backend a1.buffer with
  | (b, some e) => ({ a1 with backend := b }, some e)
  | (b, none) => ({ a1 with backend := b, buffer := [] }, none)

/-- Destructor `PausableBackendAdapter::~PausableBackendAdapter()`, whose body is
`resume();`.  The result is the state of the members when the body is left. -/
def destroy (fault : Fault RV ε) (a : PausableBackendAdapter RV) :
    PausableBackendAdapter RV × Option ε :=
  a.resume fault

end PausableBackendAdapter

/-! ## Call sequences -/

/-- One call of a public method made by a client of the adapter. -/
inductive Call (RV : Type) where
  | consume (recordView : RV) (message : String)
  | pause
  | resume
  deriving DecidableEq, Repr

namespace PausableBackendAdapter

variable {RV ε : Type}

/-- Perform one call. -/
def call (fault : Fault RV ε) (a : PausableBackendAdapter RV) :
    Call RV → PausableBackendAdapter RV × Option ε
  | Call.consume recordView message => a.consume fault recordView message
  | Call.pause => (a.pause, none)
  | Call.resume => a.resume fault

/-- Perform the calls of a list one after the other, the client going on to the
next call whatever the outcome of the previous one. -/
def runCalls (fault : Fault RV ε) (a : PausableBackendAdapter RV) :
    List (Call RV) → PausableBackendAdapter RV
  | [] => a
  | c :: cs => runCalls fault (a.call fault c).1 cs

/-- Call `consume` once for each record of a list, in list order. -/
def consumeAll (fault : Fault RV ε) (a : PausableBackendAdapter RV)
    (records : List (RV × String)) : PausableBackendAdapter RV :=
  runCalls fault a (records.map fun r => Call.consume r.1 r.2)

/-- The state property that keeps the delivery order: an unpaused adapter holds
no buffered record. -/
def Settled (a : PausableBackendAdapter RV) : Prop :=
  a.isPaused = false → a.buffer = []

end PausableBackendAdapter

/-- The records a call list passes to `consume`, in call order. -/
def consumedRecords {RV : Type} : List (Call RV) → List (RV × String)
  | [] => []
  | Call.consume recordView message :: cs => (recordView, message) :: consumedRecords cs
  | Call.pause :: cs => consumedRecords cs
  | Call.resume :: cs => consumedRecords cs

/-- The scenario of the spec's example: `a`, `b` unpaused, `c`, `d` while paused,
`e` after the resume. -/
def exampleCalls : List (Call Nat) :=
  [Call.consume 1 "a", Call.consume 2 "b", Call.pause, Call.consume 3 "c",
   Call.consume 4 "d", Call.resume, Call.consume 5 "e"]

/-- A backend that has not been written to. -/
def freshBackend {RV : Type} : TextOstreamBackend RV := { received := [], calls := 0 }

/-- A backend that throws on its second call only. -/
def secondCallFails : Fault Nat String :=
  fun n _ => if n = 1 then some "stream error" else none

/-- A paused adapter holding two records over a backend that has accepted one. -/
def pausedSample : PausableBackendAdapter Nat :=
  { backend := { received := [(1, "a")], calls := 1 },
    buffer := [(2, "b"), (3, "c")], isPaused := true }

/-- An unpaused adapter with an empty buffer over a backend that has accepted one
record. -/
def unpausedSample : PausableBackendAdapter Nat :=
  { backend := { received := [(1, "a")], calls := 1 }, buffer := [], isPaused := false }

/-- The calls of a list made after its last `resume` (all of them when the list
has no `resume`), in call order. -/
def callsSinceResume {RV : Type} (cs : List (Call RV)) : List (Call RV) :=
  cs.foldl (fun pending c =>
    match c with
    | Call.resume => []
    | Call.consume recordView message => pending ++ [Call.consume recordView message]
    | Call.pause => pending ++ [Call.pause]) []

/-- The calls of a list that follow its first `pause` (none when the list has no
`pause`). -/
def afterFirstPause {RV : Type} : List (Call RV) → List (Call RV)
  | [] => []
  | Call.pause :: cs => cs
  | Call.consume _ _ :: cs => afterFirstPause cs
  | Call.resume :: cs => afterFirstPause cs

/-- The scenario of a transient backend failure: `a` and `b` are buffered, the
first `resume` is cut short, `c` is consumed, and a second `resume` follows. -/
def transientFailureCalls : List (Call Nat) :=
  [Call.pause, Call.consume 1 "a", Call.consume 2 "b", Call.resume, Call.consume 3 "c",
   Call.resume]

/-- A paused adapter holding `a` and `b` over a backend that has not been called. -/
def pausedFreshSample : PausableBackendAdapter Nat :=
  { backend := freshBackend, buffer := [(1, "a"), (2, "b")], isPaused := true }

/-! ## Log levels -/

/-- Modelled from the spec: the enumeration `LogLevel` is declared in `logging.h`,
which is not among the sources.  The spec gives it the values "Trace < Debug < Info
< Warning < Error < Fatal", the six values that the member table of `logging.cpp`
names. -/
inductive LogLevel where
  | Trace
  | Debug
  | Info
  | Warning
  | Error
  | Fatal
  deriving DecidableEq, Repr

/-- Specialisation `getEnumTypeName<LogLevel>()`. -/
def getEnumTypeName : String := "LogLevel"

/-- Specialisation `getEnumMembers<LogLevel>()`: the member table, in source order. -/
def getEnumMembers : List (LogLevel × String) :=
  [(LogLevel.Trace, "Trace"),
   (LogLevel.Debug, "Debug"),
   (LogLevel.Info, "Info"),
   (LogLevel.Warning, "Warning"),
   (LogLevel.Error, "Error"),
   (LogLevel.Fatal, "Fatal")]

/-- The failure of a lookup in the member table of the enumeration `typeName`. -/
inductive LookupFailure where
  | unknownValue (typeName : String) (value : LogLevel)
  | unknownName (typeName : String) (name : String)
  deriving DecidableEq, Repr

deriving instance DecidableEq for Except

/-- Modelled from the spec: the template `enumToString`, declared in a header that
is not among the sources.  The spec has it "render a level as its name" through
the "value→name" table built from the members. -/
def enumToString (value : LogLevel) : Except LookupFailure String :=
  match getEnumMembers.find? (fun member => decide (member.1 = value)) with
  | some member => Except.ok member.2
  | none => Except.error (LookupFailure.unknownValue getEnumTypeName value)

/-- Modelled from the spec: the template `parseEnum`, declared in a header that is
not among the sources.  The spec has it "parse a name into a level" through the
"name→value" table built from the members, and "parsing failure on unknown name is
a reportable error, not a silent default", "signaled as a lookup failure to the
caller". -/
def parseEnum (name : String) : Except LookupFailure LogLevel :=
  match getEnumMembers.find? (fun member => decide (member.2 = name)) with
  | some member => Except.ok member.1
  | none => Except.error (LookupFailure.unknownName getEnumTypeName name)

/-- Function `operator<<(std::ostream&, LogLevel)`: `return stream << enumToString(value);`.
The stream is the text written so far. -/
def operatorInsert (stream : String) (value : LogLevel) : Except LookupFailure String :=
  match enumToString value with
  | Except.ok name => Except.ok (stream ++ name)
  | Except.error e => Except.error e

/-- Function `operator>>(std::istream&, LogLevel&)`:
`stream >> name; value = parseEnum<LogLevel>(name);`, from the token `name` that the
stream extraction yields.  The result is the content of `value` after the call and
the exception that left it, if any; an exception leaves before the assignment. -/
def operatorExtract (name : String) (value : LogLevel) : LogLevel × Option LookupFailure :=
  match parseEnum name with
  | Except.ok parsed => (parsed, none)
  | Except.error e => (value, some e)

/-! ## Basic facts about single calls -/

namespace PausableBackendAdapter

variable {RV ε : Type}

theorem backend_consume_of_none (fault : Fault RV ε) (b : TextOstreamBackend RV)
    (recordView : RV) (message : String) (h : fault b.calls (recordView, message) = none) :
    b.consume fault recordView message
      = ({ received := b.received ++ [(recordView, message)], calls := b.calls + 1 }, none) := by
  simp [TextOstreamBackend.consume, h]

theorem backend_consume_of_some (fault : Fault RV ε) (b : TextOstreamBackend RV)
    (recordView : RV) (message : String) (e : ε)
    (h : fault b.calls (recordView, message) = some e) :
    b.consume fault recordView message = ({ b with calls := b.calls + 1 }, some e) := by
  simp [TextOstreamBackend.consume, h]

theorem consume_of_paused (fault : Fault RV ε) (a : PausableBackendAdapter RV)
    (recordView : RV) (message : String) (h : a.isPaused = true) :
    a.consume fault recordView message
      = ({ a with buffer := a.buffer ++ [(recordView, message)] }, none) := by
  simp [consume, h]

theorem consume_of_not_paused (fault : Fault RV ε) (a : PausableBackendAdapter RV)
    (recordView : RV) (message : String) (h : a.isPaused = false) :
    a.consume fault recordView message
      = ({ a with backend := (a.backend.consume fault recordView message).1 },
          (a.backend.consume fault recordView message).2) := by
  simp [consume, h]

theorem consume_of_not_paused_of_none (fault : Fault RV ε) (a : PausableBackendAdapter RV)
    (recordView : RV) (message : String) (h : a.isPaused = false)
    (hw : fault a.backend.calls (recordView, message) = none) :
    a.consume fault recordView message
      = ({ a with backend := { received := a.backend.received ++ [(recordView, message)],
                               calls := a.backend.calls + 1 } }, none) := by
  rw [consume_of_not_paused fault a recordView message h,
    backend_consume_of_none fault a.backend recordView message hw]

/-- With a backend that never fails the drain loop hands over the whole list. -/
theorem drain_of_neverFails (fault : Fault RV ε) (hnf : NeverFails fault)
    (b : TextOstreamBackend RV) (records : List (RV × String)) :
    drain fault b records
      = ({ received := b.received ++ records, calls := b.calls + records.length }, none) := by
  induction records generalizing b with
  | nil => simp [drain]
  | cons r rest ih =>
    rw [drain, backend_consume_of_none fault b r.1 r.2 (hnf _ _)]
    simp only [ih, List.length_cons, List.append_assoc, List.singleton_append]
    simp [Nat.add_assoc, Nat.add_comm 1]

theorem resume_of_neverFails (fault : Fault RV ε) (hnf : NeverFails fault)
    (a : PausableBackendAdapter RV) :
    a.resume fault
      = ({ backend := { received := a.backend.received ++ a.buffer,
                        calls := a.backend.calls + a.buffer.length },
           buffer := [], isPaused := false }, none) := by
  simp [resume, drain_of_neverFails fault hnf]

theorem runCalls_append (fault : Fault RV ε) (a : PausableBackendAdapter RV)
    (cs ds : List (Call RV)) :
    runCalls fault a (cs ++ ds) = runCalls fault (runCalls fault a cs) ds := by
  induction cs generalizing a with
  | nil => rfl
  | cons c cs ih => simp [runCalls, ih]

theorem consumeAll_append (fault : Fault RV ε) (a : PausableBackendAdapter RV)
    (xs ys : List (RV × String)) :
    consumeAll fault a (xs ++ ys) = consumeAll fault (consumeAll fault a xs) ys := by
  simp [consumeAll, runCalls_append]

/-- While paused, a run of `consume` calls only grows the buffer. -/
theorem consumeAll_of_paused (fault : Fault RV ε) (a : PausableBackendAdapter RV)
    (records : List (RV × String)) (h : a.isPaused = true) :
    consumeAll fault a records = { a with buffer := a.buffer ++ records } := by
  induction records generalizing a with
  | nil => simp [consumeAll, runCalls]
  | cons r rest ih =>
    have hstep : consumeAll fault a (r :: rest)
        = consumeAll fault (a.consume fault r.1 r.2).1 rest := by
      simp [consumeAll, runCalls, call]
    rw [hstep, consume_of_paused fault a r.1 r.2 h]
    simp [ih, h]

/-- While unpaused, over a backend that never fails, a run of `consume` calls only
grows the backend's log. -/
theorem consumeAll_of_not_paused (fault : Fault RV ε) (hnf : NeverFails fault)
    (a : PausableBackendAdapter RV) (records : List (RV × String))
    (h : a.isPaused = false) :
    consumeAll fault a records
      = { a with backend := { received := a.backend.received ++ records,
                              calls := a.backend.calls + records.length } } := by
  induction records generalizing a with
  | nil => simp [consumeAll, runCalls]
  | cons r rest ih =>
    have hstep : consumeAll fault a (r :: rest)
        = consumeAll fault (a.consume fault r.1 r.2).1 rest := by
      simp [consumeAll, runCalls, call]
    rw [hstep, consume_of_not_paused_of_none fault a r.1 r.2 h (hnf _ _)]
    simp [ih, h, Nat.add_assoc, Nat.add_comm 1]

theorem settled_create (backend : TextOstreamBackend RV) : Settled (create backend) := by
  intro _; rfl

/-- One call over a backend that never fails keeps `Settled` and extends the
backend's log followed by the buffer by the record consumed, if any. -/
theorem call_settled (fault : Fault RV ε) (hnf : NeverFails fault)
    (a : PausableBackendAdapter RV) (c : Call RV) (hs : Settled a) :
    Settled (a.call fault c).1 ∧
      (a.call fault c).1.backend.received ++ (a.call fault c).1.buffer
        = a.backend.received ++ a.buffer ++ consumedRecords [c] := by
  cases c with
  | consume recordView message =>
    cases hp : a.isPaused with
    | true =>
      simp [call, consume_of_paused fault a recordView message hp, Settled, hp,
        consumedRecords]
    | false =>
      have hb : a.buffer = [] := hs hp
      simp [call, consume_of_not_paused_of_none fault a recordView message hp (hnf _ _),
        Settled, hb, consumedRecords]
  | pause => simp [call, pause, Settled, consumedRecords]
  | resume => simp [call, resume_of_neverFails fault hnf, Settled, consumedRecords]

theorem consumedRecords_cons (c : Call RV) (cs : List (Call RV)) :
    consumedRecords (c :: cs) = consumedRecords [c] ++ consumedRecords cs := by
  cases c <;> simp [consumedRecords]

theorem runCalls_settled (fault : Fault RV ε) (hnf : NeverFails fault)
    (a : PausableBackendAdapter RV) (cs : List (Call RV)) (hs : Settled a) :
    Settled (runCalls fault a cs) ∧
      (runCalls fault a cs).backend.received ++ (runCalls fault a cs).buffer
        = a.backend.received ++ a.buffer ++ consumedRecords cs := by
  induction cs generalizing a with
  | nil => simp [runCalls, consumedRecords, hs]
  | cons c cs ih =>
    obtain ⟨hs1, h1⟩ := call_settled fault hnf a c hs
    obtain ⟨hs2, h2⟩ := ih (a.call fault c).1 hs1
    refine ⟨hs2, ?_⟩
    rw [runCalls, h2, h1, consumedRecords_cons c cs, List.append_assoc]

theorem neverFails_noFault : NeverFails (noFault : Fault RV ε) := fun _ _ => rfl

end PausableBackendAdapter

/-! ## Delivery: no loss, no duplication, no reordering -/

/-- C1: over a backend whose writes never fail, after any list of
consume/pause/resume calls on a freshly constructed adapter, the backend's received
records followed by the buffer are the records the backend held at construction
followed by exactly the records passed to `consume`, in call order; when the list
is followed by a `resume`, the backend alone has received all of them, in that
order, and the buffer is empty. -/
theorem PausableBackendAdapter.delivery_exactly_once_in_order {RV ε : Type}
    (fault : Fault RV ε) (hnf : NeverFails fault) (backend : TextOstreamBackend RV)
    (cs : List (Call RV)) :
    (runCalls fault (create backend) cs).backend.received
        ++ (runCalls fault (create backend) cs).buffer
      = backend.received ++ consumedRecords cs
    ∧ (runCalls fault (create backend) (cs ++ [Call.resume])).backend.received
      = backend.received ++ consumedRecords cs
    ∧ (runCalls fault (create backend) (cs ++ [Call.resume])).buffer = [] := by
  have hrun := (runCalls_settled fault hnf (create backend) cs (settled_create backend)).2
  have hrun1 : (runCalls fault (create backend) cs).backend.received
        ++ (runCalls fault (create backend) cs).buffer
      = backend.received ++ consumedRecords cs := by
    simpa [create] using hrun
  refine ⟨hrun1, ?_, ?_⟩
  · rw [runCalls_append]
    simp only [runCalls, call, resume_of_neverFails fault hnf]
    exact hrun1
  · rw [runCalls_append]
    simp only [runCalls, call, resume_of_neverFails fault hnf]

/-- The spec's example scenario: the log of a fresh backend ends as
`[a, b, c, d, e]`. -/
theorem PausableBackendAdapter.delivery_exactly_once_in_order_witness :
    NeverFails (noFault : Fault Nat Unit)
    ∧ ((runCalls (noFault : Fault Nat Unit) (create freshBackend) exampleCalls).backend.received
          ++ (runCalls (noFault : Fault Nat Unit) (create freshBackend) exampleCalls).buffer
        = freshBackend.received ++ consumedRecords exampleCalls
      ∧ (runCalls (noFault : Fault Nat Unit) (create freshBackend)
          (exampleCalls ++ [Call.resume])).backend.received
        = freshBackend.received ++ consumedRecords exampleCalls
      ∧ (runCalls (noFault : Fault Nat Unit) (create freshBackend)
          (exampleCalls ++ [Call.resume])).buffer = [])
    ∧ (runCalls (noFault : Fault Nat Unit) (create freshBackend) exampleCalls).backend.received
        = [(1, "a"), (2, "b"), (3, "c"), (4, "d"), (5, "e")]
    ∧ (runCalls (noFault : Fault Nat Unit) (create freshBackend) exampleCalls).buffer = [] :=
  ⟨neverFails_noFault,
    PausableBackendAdapter.delivery_exactly_once_in_order noFault neverFails_noFault
      freshBackend exampleCalls,
    by decide, by decide⟩

/-- C2: from any state with an empty buffer, over a backend whose writes never
fail, `pause`, then `consume` of each record of `rs`, then `resume`, then `consume`
of each record of `ss` appends to the backend's log exactly `rs` followed by `ss`:
after the `resume` the log is the old log followed by `rs`, and after the later
calls it is that followed by `ss`, so no record of `ss` comes ahead of one of `rs`. -/
theorem PausableBackendAdapter.paused_batch_precedes_later_records {RV ε : Type}
    (fault : Fault RV ε) (hnf : NeverFails fault) (a : PausableBackendAdapter RV)
    (hbuf : a.buffer = []) (rs ss : List (RV × String)) :
    ((consumeAll fault a.pause rs).resume fault).1.backend.received
      = a.backend.received ++ rs
    ∧ (consumeAll fault ((consumeAll fault a.pause rs).resume fault).1 ss).backend.received
      = a.backend.received ++ rs ++ ss
    ∧ runCalls fault a
        ([Call.pause] ++ rs.map (fun r => Call.consume r.1 r.2) ++ [Call.resume]
          ++ ss.map (fun r => Call.consume r.1 r.2))
      = consumeAll fault ((consumeAll fault a.pause rs).resume fault).1 ss := by
  have hp : a.pause.isPaused = true := rfl
  refine ⟨?_, ?_, ?_⟩
  · rw [consumeAll_of_paused fault a.pause rs hp, resume_of_neverFails fault hnf]
    simp [pause, hbuf]
  · rw [consumeAll_of_paused fault a.pause rs hp, resume_of_neverFails fault hnf,
      consumeAll_of_not_paused fault hnf _ ss rfl]
    simp [pause, hbuf]
  · simp [runCalls_append, runCalls, call, consumeAll]

theorem PausableBackendAdapter.paused_batch_precedes_later_records_witness :
    NeverFails (noFault : Fault Nat Unit) ∧ unpausedSample.buffer = []
    ∧ (((consumeAll (noFault : Fault Nat Unit) unpausedSample.pause
            [(2, "b"), (3, "c")]).resume (noFault : Fault Nat Unit)).1.backend.received
        = unpausedSample.backend.received ++ [(2, "b"), (3, "c")]
      ∧ (consumeAll (noFault : Fault Nat Unit)
            ((consumeAll (noFault : Fault Nat Unit) unpausedSample.pause
              [(2, "b"), (3, "c")]).resume (noFault : Fault Nat Unit)).1
            [(4, "d")]).backend.received
        = unpausedSample.backend.received ++ [(2, "b"), (3, "c")] ++ [(4, "d")]
      ∧ runCalls (noFault : Fault Nat Unit) unpausedSample
          ([Call.pause] ++ [(2, "b"), (3, "c")].map (fun r => Call.consume r.1 r.2)
            ++ [Call.resume] ++ [(4, "d")].map (fun r => Call.consume r.1 r.2))
        = consumeAll (noFault : Fault Nat Unit)
            ((consumeAll (noFault : Fault Nat Unit) unpausedSample.pause
              [(2, "b"), (3, "c")]).resume (noFault : Fault Nat Unit)).1 [(4, "d")]) :=
  ⟨neverFails_noFault, rfl,
    PausableBackendAdapter.paused_batch_precedes_later_records noFault neverFails_noFault
      unpausedSample rfl [(2, "b"), (3, "c")] [(4, "d")]⟩

/-! ## Single calls -/

/-- C3: in a paused state `consume(r)` returns normally, appends `r` at the tail of
the buffer, leaves the backend untouched (no record received, no call made) and
leaves `isPaused` true, whatever the backend's failure behaviour. -/
theorem PausableBackendAdapter.consume_paused_appends_to_buffer {RV ε : Type}
    (fault : Fault RV ε) (a : PausableBackendAdapter RV) (recordView : RV)
    (message : String) (hp : a.isPaused = true) :
    (a.consume fault recordView message).1.buffer = a.buffer ++ [(recordView, message)]
    ∧ (a.consume fault recordView message).1.backend = a.backend
    ∧ (a.consume fault recordView message).1.isPaused = true
    ∧ (a.consume fault recordView message).2 = none := by
  rw [consume_of_paused fault a recordView message hp]
  simp [hp]

theorem PausableBackendAdapter.consume_paused_appends_to_buffer_witness :
    pausedSample.isPaused = true
    ∧ ((pausedSample.consume secondCallFails 4 "d").1.buffer = pausedSample.buffer ++ [(4, "d")]
      ∧ (pausedSample.consume secondCallFails 4 "d").1.backend = pausedSample.backend
      ∧ (pausedSample.consume secondCallFails 4 "d").1.isPaused = true
      ∧ (pausedSample.consume secondCallFails 4 "d").2 = none) :=
  ⟨rfl, PausableBackendAdapter.consume_paused_appends_to_buffer secondCallFails
    pausedSample 4 "d" rfl⟩

/-- C4: in an unpaused state, when the backend's write of `r` does not fail,
`consume(r)` returns normally with `r` written: the backend's received records are
the previous ones followed by `r`, and the buffer and `isPaused` are unchanged. -/
theorem PausableBackendAdapter.consume_unpaused_writes_through {RV ε : Type}
    (fault : Fault RV ε) (a : PausableBackendAdapter RV) (recordView : RV)
    (message : String) (hp : a.isPaused = false)
    (hw : fault a.backend.calls (recordView, message) = none) :
    (a.consume fault recordView message).2 = none
    ∧ (a.consume fault recordView message).1.backend.received
        = a.backend.received ++ [(recordView, message)]
    ∧ (a.consume fault recordView message).1.buffer = a.buffer
    ∧ (a.consume fault recordView message).1.isPaused = false := by
  rw [consume_of_not_paused_of_none fault a recordView message hp hw]
  simp [hp]

theorem PausableBackendAdapter.consume_unpaused_writes_through_witness :
    (create (freshBackend : TextOstreamBackend Nat)).isPaused = false
    ∧ secondCallFails (create (freshBackend : TextOstreamBackend Nat)).backend.calls (1, "a")
        = none
    ∧ (((create freshBackend).consume secondCallFails 1 "a").2 = none
      ∧ ((create freshBackend).consume secondCallFails 1 "a").1.backend.received
          = (create freshBackend).backend.received ++ [(1, "a")]
      ∧ ((create freshBackend).consume secondCallFails 1 "a").1.buffer
          = (create freshBackend).buffer
      ∧ ((create freshBackend).consume secondCallFails 1 "a").1.isPaused = false) :=
  ⟨rfl, rfl, PausableBackendAdapter.consume_unpaused_writes_through secondCallFails
    (create freshBackend) 1 "a" rfl rfl⟩

/-- C5: in every state, paused or not and whatever the buffer holds, over a backend
whose writes never fail, `resume()` returns normally; afterwards the buffer is
empty, `isPaused` is false, and the backend has received its previous records
followed by the records that were in the buffer, each once and oldest first. -/
theorem PausableBackendAdapter.resume_drains_buffer {RV ε : Type}
    (fault : Fault RV ε) (hnf : NeverFails fault) (a : PausableBackendAdapter RV) :
    (a.resume fault).2 = none
    ∧ (a.resume fault).1.buffer = []
    ∧ (a.resume fault).1.isPaused = false
    ∧ (a.resume fault).1.backend.received = a.backend.received ++ a.buffer := by
  rw [resume_of_neverFails fault hnf]
  simp

theorem PausableBackendAdapter.resume_drains_buffer_witness :
    NeverFails (noFault : Fault Nat Unit)
    ∧ ((pausedSample.resume (noFault : Fault Nat Unit)).2 = none
      ∧ (pausedSample.resume (noFault : Fault Nat Unit)).1.buffer = []
      ∧ (pausedSample.resume (noFault : Fault Nat Unit)).1.isPaused = false
      ∧ (pausedSample.resume (noFault : Fault Nat Unit)).1.backend.received
          = pausedSample.backend.received ++ pausedSample.buffer)
    ∧ (pausedSample.resume (noFault : Fault Nat Unit)).1.backend.received
        = [(1, "a"), (2, "b"), (3, "c")] :=
  ⟨neverFails_noFault,
    PausableBackendAdapter.resume_drains_buffer noFault neverFails_noFault pausedSample,
    by decide⟩

/-- C6: teardown forces a resume.  Over a backend whose writes never fail,
constructing an adapter, calling `pause()`, consuming the records `rs` and then
running the destructor without a `resume()` leaves the backend with its earlier
records followed by `rs`, in order, and the destructor body completes; and for
every backend behaviour and every state, paused or never paused, the destructor
has the effect of `resume()` on all members, the buffer and the backend included. -/
theorem PausableBackendAdapter.destroy_forces_resume {RV ε : Type}
    (fault : Fault RV ε) (hnf : NeverFails fault) (backend : TextOstreamBackend RV)
    (rs : List (RV × String)) :
    ((consumeAll fault (create backend).pause rs).destroy fault).1.backend.received
      = backend.received ++ rs
    ∧ ((consumeAll fault (create backend).pause rs).destroy fault).1.buffer = []
    ∧ ((consumeAll fault (create backend).pause rs).destroy fault).2 = none
    ∧ ∀ (anyFault : Fault RV ε) (a : PausableBackendAdapter RV),
        a.destroy anyFault = a.resume anyFault := by
  have hp : (create backend).pause.isPaused = true := rfl
  rw [destroy, consumeAll_of_paused fault _ rs hp, resume_of_neverFails fault hnf]
  simp [pause, create, destroy]

theorem PausableBackendAdapter.destroy_forces_resume_witness :
    NeverFails (noFault : Fault Nat Unit)
    ∧ (((consumeAll (noFault : Fault Nat Unit) (create freshBackend).pause
            [(1, "a"), (2, "b")]).destroy (noFault : Fault Nat Unit)).1.backend.received
        = freshBackend.received ++ [(1, "a"), (2, "b")]
      ∧ ((consumeAll (noFault : Fault Nat Unit) (create freshBackend).pause
            [(1, "a"), (2, "b")]).destroy (noFault : Fault Nat Unit)).1.buffer = []
      ∧ ((consumeAll (noFault : Fault Nat Unit) (create freshBackend).pause
            [(1, "a"), (2, "b")]).destroy (noFault : Fault Nat Unit)).2 = none
      ∧ ∀ (anyFault : Fault Nat Unit) (a : PausableBackendAdapter Nat),
          a.destroy anyFault = a.resume anyFault) :=
  ⟨neverFails_noFault,
    PausableBackendAdapter.destroy_forces_resume noFault neverFails_noFault freshBackend
      [(1, "a"), (2, "b")]⟩

/-! ## Idempotence -/

/-- C7: `resume` is idempotent.  In every state, over a backend whose writes never
fail, a second `resume()` right after a first one returns normally and leaves the
whole state as the first call left it: the same members, the same received records,
and no further call to the backend. -/
theorem PausableBackendAdapter.resume_idempotent {RV ε : Type}
    (fault : Fault RV ε) (hnf : NeverFails fault) (a : PausableBackendAdapter RV) :
    (a.resume fault).1.resume fault = a.resume fault
    ∧ ((a.resume fault).1.resume fault).1.backend.received
        = (a.resume fault).1.backend.received
    ∧ ((a.resume fault).1.resume fault).1.backend.calls = (a.resume fault).1.backend.calls := by
  have h : (a.resume fault).1.resume fault = a.resume fault := by
    rw [resume_of_neverFails fault hnf a, resume_of_neverFails fault hnf]
    simp
  refine ⟨h, ?_, ?_⟩ <;> rw [h]

theorem PausableBackendAdapter.resume_idempotent_witness :
    NeverFails (noFault : Fault Nat Unit)
    ∧ ((pausedSample.resume (noFault : Fault Nat Unit)).1.resume (noFault : Fault Nat Unit)
        = pausedSample.resume (noFault : Fault Nat Unit)
      ∧ ((pausedSample.resume (noFault : Fault Nat Unit)).1.resume
            (noFault : Fault Nat Unit)).1.backend.received
          = (pausedSample.resume (noFault : Fault Nat Unit)).1.backend.received
      ∧ ((pausedSample.resume (noFault : Fault Nat Unit)).1.resume
            (noFault : Fault Nat Unit)).1.backend.calls
          = (pausedSample.resume (noFault : Fault Nat Unit)).1.backend.calls) :=
  ⟨neverFails_noFault,
    PausableBackendAdapter.resume_idempotent noFault neverFails_noFault pausedSample⟩

/-- C8: `pause` is idempotent.  In every state `pause()` sets the flag and touches
neither the buffer nor the backend, and a second `pause()` changes nothing more;
and `pause()`, consuming `xs`, `pause()` again, consuming `ys` ends in the same
state as `pause()` followed by consuming `xs ++ ys`: the buffer is the old buffer
followed by `xs` and `ys`, and the backend is untouched. -/
theorem PausableBackendAdapter.pause_idempotent {RV ε : Type}
    (fault : Fault RV ε) (a : PausableBackendAdapter RV) (xs ys : List (RV × String)) :
    a.pause.pause = a.pause
    ∧ a.pause.isPaused = true ∧ a.pause.buffer = a.buffer ∧ a.pause.backend = a.backend
    ∧ consumeAll fault (consumeAll fault a.pause xs).pause ys
        = consumeAll fault a.pause (xs ++ ys)
    ∧ (consumeAll fault (consumeAll fault a.pause xs).pause ys).buffer = a.buffer ++ xs ++ ys
    ∧ (consumeAll fault (consumeAll fault a.pause xs).pause ys).backend = a.backend := by
  have hp : a.pause.isPaused = true := rfl
  have h1 : consumeAll fault a.pause xs = { a.pause with buffer := a.pause.buffer ++ xs } :=
    consumeAll_of_paused fault a.pause xs hp
  have h2 : (consumeAll fault a.pause xs).pause = consumeAll fault a.pause xs := by
    rw [h1]; rfl
  have h3 : consumeAll fault (consumeAll fault a.pause xs).pause ys
      = consumeAll fault a.pause (xs ++ ys) := by
    rw [h2, consumeAll_append]
  refine ⟨rfl, rfl, rfl, rfl, h3, ?_, ?_⟩
  · rw [h3, consumeAll_of_paused fault a.pause (xs ++ ys) hp]
    simp [pause]
  · rw [h3, consumeAll_of_paused fault a.pause (xs ++ ys) hp]
    simp [pause]

/-- C9: a `consume(r)` that returns normally has exactly one of two outcomes:
either `r` is appended to the buffer and the backend is untouched, or `r` is
appended to the backend's received records and the buffer is unchanged; never both
and never neither. -/
theorem PausableBackendAdapter.consume_buffers_xor_forwards {RV ε : Type}
    (fault : Fault RV ε) (a : PausableBackendAdapter RV) (recordView : RV)
    (message : String) (hret : (a.consume fault recordView message).2 = none) :
    Xor'
      ((a.consume fault recordView message).1.buffer = a.buffer ++ [(recordView, message)]
        ∧ (a.consume fault recordView message).1.backend = a.backend)
      ((a.consume fault recordView message).1.backend.received
          = a.backend.received ++ [(recordView, message)]
        ∧ (a.consume fault recordView message).1.buffer = a.buffer) := by
  cases hp : a.isPaused with
  | true =>
    left
    rw [consume_of_paused fault a recordView message hp]
    simp
  | false =>
    right
    cases hf : fault a.backend.calls (recordView, message) with
    | some e =>
      rw [consume_of_not_paused fault a recordView message hp,
        backend_consume_of_some fault a.backend recordView message e hf] at hret
      simp at hret
    | none =>
      rw [consume_of_not_paused_of_none fault a recordView message hp hf]
      simp

theorem PausableBackendAdapter.consume_buffers_xor_forwards_witness :
    (pausedSample.consume secondCallFails 4 "d").2 = none
    ∧ Xor'
      ((pausedSample.consume secondCallFails 4 "d").1.buffer
          = pausedSample.buffer ++ [(4, "d")]
        ∧ (pausedSample.consume secondCallFails 4 "d").1.backend = pausedSample.backend)
      ((pausedSample.consume secondCallFails 4 "d").1.backend.received
          = pausedSample.backend.received ++ [(4, "d")]
        ∧ (pausedSample.consume secondCallFails 4 "d").1.buffer = pausedSample.buffer) :=
  ⟨by decide,
    PausableBackendAdapter.consume_buffers_xor_forwards secondCallFails pausedSample 4 "d"
      (by decide)⟩

/-! ## Construction -/

/-- C10: a freshly constructed adapter is unpaused and has an empty buffer;
constructing it leaves the backend as it was (nothing written, no call made); and a
first `consume(r)` with no `pause()` before it, whose backend write does not fail,
returns with `r` appended to the backend's received records and nothing buffered. -/
theorem PausableBackendAdapter.create_unpaused_empty {RV ε : Type}
    (fault : Fault RV ε) (backend : TextOstreamBackend RV) (recordView : RV)
    (message : String) (hw : fault backend.calls (recordView, message) = none) :
    (create backend).isPaused = false
    ∧ (create backend).buffer = []
    ∧ (create backend).backend = backend
    ∧ ((create backend).consume fault recordView message).2 = none
    ∧ ((create backend).consume fault recordView message).1.backend.received
        = backend.received ++ [(recordView, message)]
    ∧ ((create backend).consume fault recordView message).1.buffer = [] := by
  have hw1 : fault (create backend).backend.calls (recordView, message) = none := hw
  rw [consume_of_not_paused_of_none fault (create backend) recordView message rfl hw1]
  simp [create]

theorem PausableBackendAdapter.create_unpaused_empty_witness :
    secondCallFails (freshBackend : TextOstreamBackend Nat).calls (7, "first") = none
    ∧ ((create (freshBackend : TextOstreamBackend Nat)).isPaused = false
      ∧ (create (freshBackend : TextOstreamBackend Nat)).buffer = []
      ∧ (create (freshBackend : TextOstreamBackend Nat)).backend = freshBackend
      ∧ ((create freshBackend).consume secondCallFails 7 "first").2 = none
      ∧ ((create freshBackend).consume secondCallFails 7 "first").1.backend.received
          = freshBackend.received ++ [(7, "first")]
      ∧ ((create freshBackend).consume secondCallFails 7 "first").1.buffer = []) :=
  ⟨rfl, PausableBackendAdapter.create_unpaused_empty secondCallFails freshBackend 7 "first"
    rfl⟩

/-! ## Facts about call histories and interrupted drains -/

theorem callsSinceResume_snoc {RV : Type} (cs : List (Call RV)) (c : Call RV) :
    callsSinceResume (cs ++ [c])
      = match c with
        | Call.resume => []
        | Call.consume recordView message =>
          callsSinceResume cs ++ [Call.consume recordView message]
        | Call.pause => callsSinceResume cs ++ [Call.pause] := by
  simp [callsSinceResume, List.foldl_append]

theorem afterFirstPause_append_of_mem {RV : Type} (p q : List (Call RV))
    (h : Call.pause ∈ p) : afterFirstPause (p ++ q) = afterFirstPause p ++ q := by
  induction p with
  | nil => simp at h
  | cons c p ih =>
    cases c with
    | pause => simp [afterFirstPause]
    | consume recordView message =>
      have hp : Call.pause ∈ p := by simpa using h
      simp [afterFirstPause, ih hp]
    | resume =>
      have hp : Call.pause ∈ p := by simpa using h
      simp [afterFirstPause, ih hp]

theorem afterFirstPause_append_of_not_mem {RV : Type} (p q : List (Call RV))
    (h : Call.pause ∉ p) : afterFirstPause (p ++ q) = afterFirstPause q := by
  induction p with
  | nil => rfl
  | cons c p ih =>
    have hp : Call.pause ∉ p := fun hm => h (List.mem_cons_of_mem _ hm)
    cases c with
    | pause => simp at h
    | consume recordView message => simp [afterFirstPause, ih hp]
    | resume => simp [afterFirstPause, ih hp]

theorem afterFirstPause_of_not_mem {RV : Type} (p : List (Call RV))
    (h : Call.pause ∉ p) : afterFirstPause p = [] := by
  have := afterFirstPause_append_of_not_mem p [] h
  simpa [afterFirstPause] using this

theorem consumedRecords_append {RV : Type} (cs ds : List (Call RV)) :
    consumedRecords (cs ++ ds) = consumedRecords cs ++ consumedRecords ds := by
  induction cs with
  | nil => rfl
  | cons c cs ih => cases c <;> simp [consumedRecords, ih]

namespace PausableBackendAdapter

variable {RV ε : Type}

/-- Over a backend that never fails the state is determined by the calls made
since the last `resume`: the adapter is paused exactly when one of them is a
`pause`, and the buffer holds the records consumed after the first such `pause`. -/
theorem runCalls_history (fault : Fault RV ε) (hnf : NeverFails fault)
    (backend : TextOstreamBackend RV) (cs : List (Call RV)) :
    ((runCalls fault (create backend) cs).isPaused = true
        ↔ Call.pause ∈ callsSinceResume cs)
    ∧ (runCalls fault (create backend) cs).buffer
        = consumedRecords (afterFirstPause (callsSinceResume cs)) := by
  induction cs using List.reverseRecOn with
  | nil => simp [runCalls, create, callsSinceResume, afterFirstPause, consumedRecords]
  | append_singleton cs c ih =>
    obtain ⟨ihp, ihb⟩ := ih
    rw [runCalls_append, callsSinceResume_snoc]
    cases c with
    | resume =>
      simp [runCalls, call, resume_of_neverFails fault hnf, afterFirstPause,
        consumedRecords]
    | pause =>
      refine ⟨by simp [runCalls, call, pause], ?_⟩
      by_cases hm : Call.pause ∈ callsSinceResume cs
      · simp [runCalls, call, pause, ihb, afterFirstPause_append_of_mem _ _ hm,
          consumedRecords_append, consumedRecords]
      · simp [runCalls, call, pause, ihb, afterFirstPause_append_of_not_mem _ _ hm,
          afterFirstPause_of_not_mem _ hm, afterFirstPause, consumedRecords]
    | consume recordView message =>
      cases hp : (runCalls fault (create backend) cs).isPaused with
      | true =>
        have hm : Call.pause ∈ callsSinceResume cs := ihp.mp hp
        simp [runCalls, call, consume_of_paused fault _ recordView message hp, hp, hm,
          ihb, afterFirstPause_append_of_mem _ _ hm, consumedRecords_append,
          consumedRecords]
      | false =>
        have hm : Call.pause ∉ callsSinceResume cs := by
          intro h
          have := ihp.mpr h
          simp [hp] at this
        simp [runCalls, call, consume_of_not_paused fault _ recordView message hp, hp, hm,
          ihb, afterFirstPause_append_of_not_mem _ _ hm, afterFirstPause_of_not_mem _ hm,
          afterFirstPause, consumedRecords]

/-- The drain loop over a buffer whose first `pre.length` writes succeed and whose
next write throws `e`: the records of `pre` reach the backend, the loop is left
with `e`, and the records after the failing one are never offered. -/
theorem drain_of_failure_at (fault : Fault RV ε) (b : TextOstreamBackend RV)
    (pre post : List (RV × String)) (r : RV × String) (e : ε)
    (hpre : ∀ (i : Nat) (hi : i < pre.length), fault (b.calls + i) pre[i] = none)
    (hfail : fault (b.calls + pre.length) r = some e) :
    drain fault b (pre ++ r :: post)
      = ({ received := b.received ++ pre, calls := b.calls + pre.length + 1 }, some e) := by
  induction pre generalizing b with
  | nil =>
    have h0 : fault b.calls (r.1, r.2) = some e := by simpa using hfail
    simp [drain, backend_consume_of_some fault b r.1 r.2 e h0]
  | cons x pre ih =>
    have hx : fault b.calls (x.1, x.2) = none := by
      have := hpre 0 (by simp)
      simpa using this
    have hpre1 : ∀ (i : Nat) (hi : i < pre.length),
        fault (b.calls + 1 + i) pre[i] = none := by
      intro i hi
      have := hpre (i + 1) (by simpa using hi)
      simpa [Nat.add_assoc, Nat.add_comm 1 i] using this
    have hfail1 : fault (b.calls + 1 + pre.length) r = some e := by
      simpa [Nat.add_assoc, Nat.add_comm 1 pre.length] using hfail
    have step := ih { received := b.received ++ [(x.1, x.2)], calls := b.calls + 1 }
      hpre1 hfail1
    rw [List.cons_append, drain, backend_consume_of_none fault b x.1 x.2 hx]
    simp only [step]
    simp [Nat.add_assoc, Nat.add_comm 1 pre.length]

end PausableBackendAdapter

/-! ## The buffer of a reachable state -/

/-- C11: in every state reached from a freshly constructed adapter by
consume/pause/resume calls over a backend whose writes never fail, an unpaused
adapter has an empty buffer; a non-empty buffer means that the adapter is paused
and that a `pause` was called since the last `resume`; and the buffer holds exactly
the records consumed after the first `pause` that follows the last `resume`, so no
`resume` has completed since any of them was appended. -/
theorem PausableBackendAdapter.buffer_nonempty_only_while_paused {RV ε : Type}
    (fault : Fault RV ε) (hnf : NeverFails fault) (backend : TextOstreamBackend RV)
    (cs : List (Call RV)) :
    ((runCalls fault (create backend) cs).isPaused = false
        → (runCalls fault (create backend) cs).buffer = [])
    ∧ ((runCalls fault (create backend) cs).buffer ≠ []
        → (runCalls fault (create backend) cs).isPaused = true
          ∧ Call.pause ∈ callsSinceResume cs)
    ∧ (runCalls fault (create backend) cs).buffer
        = consumedRecords (afterFirstPause (callsSinceResume cs)) := by
  have hs : Settled (runCalls fault (create backend) cs) :=
    (runCalls_settled fault hnf (create backend) cs (settled_create backend)).1
  obtain ⟨hp, hb⟩ := runCalls_history fault hnf backend cs
  refine ⟨hs, ?_, hb⟩
  intro hne
  have hpaused : (runCalls fault (create backend) cs).isPaused = true := by
    cases h : (runCalls fault (create backend) cs).isPaused with
    | true => rfl
    | false => exact absurd (hs h) hne
  exact ⟨hpaused, hp.mp hpaused⟩

theorem PausableBackendAdapter.buffer_nonempty_only_while_paused_witness :
    NeverFails (noFault : Fault Nat Unit)
    ∧ (((runCalls (noFault : Fault Nat Unit) (create freshBackend)
            [Call.consume 1 "a", Call.resume, Call.pause, Call.consume 2 "b"]).isPaused = false
          → (runCalls (noFault : Fault Nat Unit) (create freshBackend)
              [Call.consume 1 "a", Call.resume, Call.pause, Call.consume 2 "b"]).buffer = [])
      ∧ ((runCalls (noFault : Fault Nat Unit) (create freshBackend)
            [Call.consume 1 "a", Call.resume, Call.pause, Call.consume 2 "b"]).buffer ≠ []
          → (runCalls (noFault : Fault Nat Unit) (create freshBackend)
              [Call.consume 1 "a", Call.resume, Call.pause, Call.consume 2 "b"]).isPaused = true
            ∧ Call.pause ∈ callsSinceResume
                [Call.consume 1 "a", Call.resume, Call.pause, Call.consume 2 "b"])
      ∧ (runCalls (noFault : Fault Nat Unit) (create freshBackend)
            [Call.consume 1 "a", Call.resume, Call.pause, Call.consume 2 "b"]).buffer
          = consumedRecords (afterFirstPause (callsSinceResume
              [Call.consume 1 "a", Call.resume, Call.pause, Call.consume 2 "b"])))
    ∧ (runCalls (noFault : Fault Nat Unit) (create freshBackend)
          [Call.consume 1 "a", Call.resume, Call.pause, Call.consume 2 "b"]).buffer
        = [(2, "b")] :=
  ⟨neverFails_noFault,
    PausableBackendAdapter.buffer_nonempty_only_while_paused noFault neverFails_noFault
      freshBackend [Call.consume 1 "a", Call.resume, Call.pause, Call.consume 2 "b"],
    by decide⟩

/-- C12: in every unpaused state reached from a freshly constructed adapter by
consume/pause/resume calls over a backend whose writes never fail, `resume()`
returns normally and changes nothing: the members, the backend's received records
and its call count are the same after the call as before it. -/
theorem PausableBackendAdapter.resume_noop_when_unpaused {RV ε : Type}
    (fault : Fault RV ε) (hnf : NeverFails fault) (backend : TextOstreamBackend RV)
    (cs : List (Call RV))
    (hp : (runCalls fault (create backend) cs).isPaused = false) :
    (runCalls fault (create backend) cs).resume fault
      = (runCalls fault (create backend) cs, none) := by
  have hs : Settled (runCalls fault (create backend) cs) :=
    (runCalls_settled fault hnf (create backend) cs (settled_create backend)).1
  have hb : (runCalls fault (create backend) cs).buffer = [] := hs hp
  rw [resume_of_neverFails fault hnf, hb]
  cases h : runCalls fault (create backend) cs with
  | mk b buf paused =>
    rw [h] at hp hb
    simp only at hp hb
    simp [hp, hb]

theorem PausableBackendAdapter.resume_noop_when_unpaused_witness :
    NeverFails (noFault : Fault Nat Unit)
    ∧ (runCalls (noFault : Fault Nat Unit) (create freshBackend) exampleCalls).isPaused = false
    ∧ (runCalls (noFault : Fault Nat Unit) (create freshBackend) exampleCalls).resume
          (noFault : Fault Nat Unit)
        = (runCalls (noFault : Fault Nat Unit) (create freshBackend) exampleCalls, none) :=
  ⟨neverFails_noFault, by decide,
    PausableBackendAdapter.resume_noop_when_unpaused noFault neverFails_noFault freshBackend
      exampleCalls (by decide)⟩

/-! ## Backend failures -/

/-- C13: with a backend whose writes may fail, `consume(r)` fails with `e` exactly
when the adapter is unpaused and the backend's write of `r` fails with `e`, so the
failure that reaches the caller is the backend's own; a failed `consume` leaves
`isPaused` and the buffer unchanged; and while paused `consume(r)` never fails,
whatever the backend would do with the record. -/
theorem PausableBackendAdapter.consume_fails_iff_backend_write_fails {RV ε : Type}
    (fault : Fault RV ε) (a : PausableBackendAdapter RV) (recordView : RV)
    (message : String) :
    (∀ e : ε, (a.consume fault recordView message).2 = some e
        ↔ a.isPaused = false ∧ (a.backend.consume fault recordView message).2 = some e)
    ∧ ((a.consume fault recordView message).2 ≠ none
        → (a.consume fault recordView message).1.isPaused = a.isPaused
          ∧ (a.consume fault recordView message).1.buffer = a.buffer)
    ∧ (a.isPaused = true → (a.consume fault recordView message).2 = none) := by
  cases hp : a.isPaused with
  | true => simp [consume_of_paused fault a recordView message hp]
  | false => simp [consume_of_not_paused fault a recordView message hp, hp]

theorem PausableBackendAdapter.consume_fails_iff_backend_write_fails_witness :
    ((∀ e : String, (unpausedSample.consume secondCallFails 2 "b").2 = some e
        ↔ unpausedSample.isPaused = false
          ∧ (unpausedSample.backend.consume secondCallFails 2 "b").2 = some e)
      ∧ ((unpausedSample.consume secondCallFails 2 "b").2 ≠ none
          → (unpausedSample.consume secondCallFails 2 "b").1.isPaused = unpausedSample.isPaused
            ∧ (unpausedSample.consume secondCallFails 2 "b").1.buffer = unpausedSample.buffer)
      ∧ (unpausedSample.isPaused = true
          → (unpausedSample.consume secondCallFails 2 "b").2 = none))
    ∧ (unpausedSample.consume secondCallFails 2 "b").2 = some "stream error"
    ∧ (pausedSample.consume secondCallFails 2 "b").2 = none :=
  ⟨PausableBackendAdapter.consume_fails_iff_backend_write_fails secondCallFails
      unpausedSample 2 "b",
    by decide, by decide⟩

/-- C17: with a backend whose writes may fail, when the writes of the first `k - 1`
buffered records succeed and the write of the `k`-th one (`r`, after the prefix
`pre` of length `k - 1`) fails with `e`, `resume()` fails with `e`; the backend has
then received exactly the records of `pre` on top of its earlier ones, `isPaused`
is false, and the buffer is what it was before the call, the forwarded records of
`pre` included. -/
theorem PausableBackendAdapter.resume_failure_keeps_buffer {RV ε : Type}
    (fault : Fault RV ε) (a : PausableBackendAdapter RV)
    (pre post : List (RV × String)) (r : RV × String) (e : ε)
    (hbuf : a.buffer = pre ++ r :: post)
    (hpre : ∀ (i : Nat) (hi : i < pre.length), fault (a.backend.calls + i) pre[i] = none)
    (hfail : fault (a.backend.calls + pre.length) r = some e) :
    (a.resume fault).2 = some e
    ∧ (a.resume fault).1.backend.received = a.backend.received ++ pre
    ∧ (a.resume fault).1.isPaused = false
    ∧ (a.resume fault).1.buffer = a.buffer := by
  simp [resume, hbuf, drain_of_failure_at fault a.backend pre post r e hpre hfail]

theorem PausableBackendAdapter.resume_failure_keeps_buffer_witness :
    pausedFreshSample.buffer = [(1, "a")] ++ (2, "b") :: []
    ∧ (∀ (i : Nat) (hi : i < [(1, "a")].length),
        secondCallFails (pausedFreshSample.backend.calls + i) [(1, "a")][i] = none)
    ∧ secondCallFails (pausedFreshSample.backend.calls + [(1, "a")].length) (2, "b")
        = some "stream error"
    ∧ ((pausedFreshSample.resume secondCallFails).2 = some "stream error"
      ∧ (pausedFreshSample.resume secondCallFails).1.backend.received
          = pausedFreshSample.backend.received ++ [(1, "a")]
      ∧ (pausedFreshSample.resume secondCallFails).1.isPaused = false
      ∧ (pausedFreshSample.resume secondCallFails).1.buffer = pausedFreshSample.buffer) :=
  ⟨rfl, by decide, by decide,
    PausableBackendAdapter.resume_failure_keeps_buffer secondCallFails pausedFreshSample
      [(1, "a")] [] (2, "b") "stream error" rfl (by decide) (by decide)⟩

/-- C18: exactly-once delivery and order do not survive a transient backend
failure.  Over a backend whose second call is the only one that fails, the calls
pause, consume `a`, consume `b`, resume, consume `c`, resume consume `a`, `b`, `c`
once each in this order; the first `resume` fails on `b` and leaves the adapter
unpaused with the uncleared buffer `[a, b]`; and the backend ends with the records
`[a, c, a, b]`: `a` twice, and `c` ahead of `b`. -/
theorem PausableBackendAdapter.transient_failure_duplicates_and_reorders :
    (∀ (n : Nat) (r : Nat × String), secondCallFails n r ≠ none ↔ n = 1)
    ∧ consumedRecords transientFailureCalls = [(1, "a"), (2, "b"), (3, "c")]
    ∧ ((runCalls secondCallFails (create freshBackend)
          [Call.pause, Call.consume 1 "a", Call.consume 2 "b"]).resume secondCallFails).2
        = some "stream error"
    ∧ runCalls secondCallFails (create freshBackend)
          [Call.pause, Call.consume 1 "a", Call.consume 2 "b", Call.resume]
        = { backend := { received := [(1, "a")], calls := 2 },
            buffer := [(1, "a"), (2, "b")], isPaused := false }
    ∧ (runCalls secondCallFails (create freshBackend) transientFailureCalls).backend.received
        = [(1, "a"), (3, "c"), (1, "a"), (2, "b")]
    ∧ ((runCalls secondCallFails (create freshBackend)
          transientFailureCalls).backend.received).count (1, "a") = 2 := by
  refine ⟨?_, by decide, by decide, by decide, by decide, by decide⟩
  intro n r
  by_cases h : n = 1 <;> simp [secondCallFails, h]

/-! ## Log level names -/

/-- C14: level names round-trip.  The member table lists the six levels Trace,
Debug, Info, Warning, Error, Fatal, each once and in this order, under the names
"Trace", "Debug", "Info", "Warning", "Error", "Fatal", which are pairwise distinct;
every level is in the table; for every level `v`, rendering `v` gives a name that
parses back to `v`, through the lookups and through the stream operators alike;
and for every name `n` of the table, parsing `n` gives a level that renders as `n`. -/
theorem LogLevel.names_round_trip :
    getEnumMembers.map Prod.fst
        = [LogLevel.Trace, LogLevel.Debug, LogLevel.Info, LogLevel.Warning, LogLevel.Error,
            LogLevel.Fatal]
    ∧ getEnumMembers.map Prod.snd = ["Trace", "Debug", "Info", "Warning", "Error", "Fatal"]
    ∧ (∀ v : LogLevel, v ∈ getEnumMembers.map Prod.fst)
    ∧ (getEnumMembers.map Prod.fst).Nodup
    ∧ (getEnumMembers.map Prod.snd).Nodup
    ∧ (∀ v : LogLevel, ∃ n : String, enumToString v = Except.ok n ∧ parseEnum n = Except.ok v)
    ∧ (∀ n : String, n ∈ getEnumMembers.map Prod.snd →
        ∃ v : LogLevel, parseEnum n = Except.ok v ∧ enumToString v = Except.ok n)
    ∧ (∀ v old : LogLevel, ∃ text : String,
        operatorInsert "" v = Except.ok text ∧ operatorExtract text old = (v, none)) := by
  refine ⟨by decide, by decide, ?_, by decide, by decide, ?_, ?_, ?_⟩
  · intro v
    cases v <;> decide
  · intro v
    cases v
    · exact ⟨"Trace", by decide, by decide⟩
    · exact ⟨"Debug", by decide, by decide⟩
    · exact ⟨"Info", by decide, by decide⟩
    · exact ⟨"Warning", by decide, by decide⟩
    · exact ⟨"Error", by decide, by decide⟩
    · exact ⟨"Fatal", by decide, by decide⟩
  · intro n hn
    simp only [getEnumMembers, List.map_cons, List.map_nil, List.mem_cons,
      List.mem_singleton, List.not_mem_nil, or_false] at hn
    rcases hn with rfl | rfl | rfl | rfl | rfl | rfl
    · exact ⟨LogLevel.Trace, by decide, by decide⟩
    · exact ⟨LogLevel.Debug, by decide, by decide⟩
    · exact ⟨LogLevel.Info, by decide, by decide⟩
    · exact ⟨LogLevel.Warning, by decide, by decide⟩
    · exact ⟨LogLevel.Error, by decide, by decide⟩
    · exact ⟨LogLevel.Fatal, by decide, by decide⟩
  · intro v old
    cases v
    · exact ⟨"Trace", by decide, by cases old <;> decide⟩
    · exact ⟨"Debug", by decide, by cases old <;> decide⟩
    · exact ⟨"Info", by decide, by cases old <;> decide⟩
    · exact ⟨"Warning", by decide, by cases old <;> decide⟩
    · exact ⟨"Error", by decide, by cases old <;> decide⟩
    · exact ⟨"Fatal", by decide, by cases old <;> decide⟩

/-- C15: parsing a name that is not one of the names of the member table is
reported to the caller as an error that carries the name: `parseEnum` yields no
level at all, and `operator>>` lets the error through and leaves the target value
as it was. -/
theorem parseEnum_unknown_name_is_error (name : String)
    (hname : name ∉ getEnumMembers.map Prod.snd) :
    parseEnum name = Except.error (LookupFailure.unknownName getEnumTypeName name)
    ∧ (∀ v : LogLevel, parseEnum name ≠ Except.ok v)
    ∧ (∀ value : LogLevel, operatorExtract name value
        = (value, some (LookupFailure.unknownName getEnumTypeName name))) := by
  have hfind : getEnumMembers.find? (fun member => decide (member.2 = name)) = none := by
    rw [List.find?_eq_none]
    intro member hmem hdec
    apply hname
    have heq : member.2 = name := by simpa using hdec
    rw [← heq]
    exact List.mem_map_of_mem Prod.snd hmem
  have hparse : parseEnum name
      = Except.error (LookupFailure.unknownName getEnumTypeName name) := by
    simp [parseEnum, hfind]
  refine ⟨hparse, ?_, ?_⟩
  · intro v hv
    rw [hparse] at hv
    cases hv
  · intro value
    simp [operatorExtract, hparse]

theorem parseEnum_unknown_name_is_error_witness :
    ("" ∉ getEnumMembers.map Prod.snd
      ∧ (parseEnum "" = Except.error (LookupFailure.unknownName getEnumTypeName "")
        ∧ (∀ v : LogLevel, parseEnum "" ≠ Except.ok v)
        ∧ (∀ value : LogLevel, operatorExtract "" value
            = (value, some (LookupFailure.unknownName getEnumTypeName "")))))
    ∧ ("info" ∉ getEnumMembers.map Prod.snd
      ∧ (parseEnum "info" = Except.error (LookupFailure.unknownName getEnumTypeName "info")
        ∧ (∀ v : LogLevel, parseEnum "info" ≠ Except.ok v)
        ∧ (∀ value : LogLevel, operatorExtract "info" value
            = (value, some (LookupFailure.unknownName getEnumTypeName "info")))))
    ∧ ("Verbose" ∉ getEnumMembers.map Prod.snd
      ∧ (parseEnum "Verbose"
            = Except.error (LookupFailure.unknownName getEnumTypeName "Verbose")
        ∧ (∀ v : LogLevel, parseEnum "Verbose" ≠ Except.ok v)
        ∧ (∀ value : LogLevel, operatorExtract "Verbose" value
            = (value, some (LookupFailure.unknownName getEnumTypeName "Verbose"))))) :=
  ⟨⟨by decide, parseEnum_unknown_name_is_error "" (by decide)⟩,
    ⟨by decide, parseEnum_unknown_name_is_error "info" (by decide)⟩,
    ⟨by decide, parseEnum_unknown_name_is_error "Verbose" (by decide)⟩⟩
